import Mathlib

/-!
Verification of the `jtd-validate` command-line driver (src/main.rs).

The driver reads a JSON Typedef schema, resolves validation options from
command-line flags, then validates a stream of JSON instances against the
schema, printing JSON Pointer error indicators and exiting with a status
code.  The external `jtd` crate (schema parsing, structural check, and the
validator itself) is treated as an abstract collaborator: the embedding is
parameterised over its results, exactly as `main` only consumes them
through `Result` values.

Strings are modelled as `List Char` where character-level reasoning is
needed (the JSON Pointer functions); driver-level strings stay `String`.
-/

namespace JtdValidate

/-- Pattern matching helper for Rust's `str::replace`: `dropPat pat s`
returns `some rest` when `pat` is a prefix of `s`, with `rest` the
remainder of `s` after the pattern, and `none` otherwise. -/
def dropPat : List Char → List Char → Option (List Char)
  | [], s => some s
  | _ :: _, [] => none
  | q :: qs, c :: cs => if c = q then dropPat qs cs else none

theorem dropPat_length :
    ∀ (pat s rest : List Char), dropPat pat s = some rest →
      rest.length + pat.length = s.length := by
  intro pat
  induction pat with
  | nil =>
    intro s rest h
    simp [dropPat] at h
    simp [h]
  | cons q qs ih =>
    intro s rest h
    cases s with
    | nil => simp [dropPat] at h
    | cons c cs =>
      simp only [dropPat] at h
      by_cases hc : c = q
      · simp [hc] at h
        have := ih cs rest h
        simp [List.length_cons]
        omega
      · simp [hc] at h

/-- Model of Rust's `str::replace` for a non-empty pattern `p :: ps`:
scan left to right, replace each non-overlapping occurrence of the pattern
with `repl`, and do not rescan the replacement text. -/
def replaceAll (p : Char) (ps : List Char) (repl : List Char) : List Char → List Char
  | [] => []
  | c :: cs =>
    match h : dropPat (p :: ps) (c :: cs) with
    | some rest => repl ++ replaceAll p ps repl rest
    | none => c :: replaceAll p ps repl cs
termination_by s => s.length
decreasing_by
  · have h2 := dropPat_length _ _ _ h
    simp at h2
    simp
    omega
  · simp

theorem replaceAll_nil (p : Char) (ps repl : List Char) :
    replaceAll p ps repl [] = [] := by
  simp [replaceAll]

theorem replaceAll_cons_pos (p : Char) (ps repl : List Char) (c : Char) (cs rest : List Char)
    (h : dropPat (p :: ps) (c :: cs) = some rest) :
    replaceAll p ps repl (c :: cs) = repl ++ replaceAll p ps repl rest := by
  rw [replaceAll]
  split
  · rename_i rest2 h2
    rw [h] at h2
    cases h2
    rfl
  · rename_i h2
    rw [h] at h2
    cases h2

theorem replaceAll_cons_neg (p : Char) (ps repl : List Char) (c : Char) (cs : List Char)
    (h : dropPat (p :: ps) (c :: cs) = none) :
    replaceAll p ps repl (c :: cs) = c :: replaceAll p ps repl cs := by
  rw [replaceAll]
  split
  · rename_i rest2 h2
    rw [h] at h2
    cases h2
  · rfl

/-- Character-by-character expansion of a string: each character is mapped
to a replacement string and the results are concatenated. -/
def charMap (f : Char → List Char) : List Char → List Char
  | [] => []
  | c :: cs => f c ++ charMap f cs

/-- JSON Pointer escaping of one path segment, translated from
`part.replace("~", "~0").replace("/", "~1")` in `to_json_pointer`
(src/main.rs line 158): first every `~` becomes `~0`, then every `/`
becomes `~1`. -/
def escapeSegment (s : List Char) : List Char :=
  replaceAll '/' [] ['~', '1'] (replaceAll '~' [] ['~', '0'] s)

/-- JSON Pointer escaping as the spec describes it semantically: a single
character-wise pass where `~` renders as `~0`, `/` renders as `~1`, and
every other character is kept. -/
def escapeSegmentSpec (s : List Char) : List Char :=
  charMap (fun c => if c = '~' then ['~', '0'] else if c = '/' then ['~', '1'] else [c]) s

/-- Translation of `to_json_pointer` from src/main.rs lines 151-163: the
empty path renders as the empty string, otherwise the escaped segments are
joined with `/` and prefixed with a single leading `/`. -/
def to_json_pointer (path : List (List Char)) : List Char :=
  if path = [] then []
  else '/' :: List.intercalate ['/'] (path.map escapeSegment)

/-- JSON Pointer unescaping of one piece, undoing `escapeSegment` in
reverse order: first every `~1` becomes `/`, then every `~0` becomes `~`. -/
def unescapeSegment (s : List Char) : List Char :=
  replaceAll '~' ['0'] ['~'] (replaceAll '~' ['1'] ['/'] s)

/-- Decoding procedure for a rendered pointer: the empty pointer denotes
the empty path; otherwise the pointer is split on its (unescaped) `/`
separators, the empty piece before the leading `/` is dropped, and each
remaining piece is unescaped. -/
def fromJsonPointer (p : List Char) : List (List Char) :=
  if p = [] then []
  else ((p.splitOn '/').tail).map unescapeSegment

/-- Model of Rust's `usize::from_str` as used for `--max-depth` and
`--max-errors`: an optional leading `+`, then one or more ASCII digits,
with the value required to fit in a 64-bit `usize`. -/
def parseUsize (s : String) : Option Nat :=
  let ds := match s.data with
    | '+' :: rest => rest
    | l => l
  if ds = [] then none
  else if ds.all Char.isDigit then
    let n := ds.foldl (fun acc c => acc * 10 + (c.toNat - '0'.toNat)) 0
    if n < 2 ^ 64 then some n else none
  else none

/-- A structured validation error as produced by the external validator:
two root-to-leaf sequences of raw (unescaped) path segments. -/
structure ValidationError where
  instance_path : List (List Char)
  schema_path : List (List Char)
deriving DecidableEq, Repr

/-- The `ErrorIndicator` struct of src/main.rs lines 142-149: the two paths
rendered as JSON Pointer strings (serialised under the JSON keys
`instancePath` and `schemaPath`). -/
structure ErrorIndicator where
  instance_path : List Char
  schema_path : List Char
deriving DecidableEq, Repr

/-- Construction of one error indicator from one validation error
(src/main.rs lines 126-129). -/
def toIndicator (e : ValidationError) : ErrorIndicator :=
  { instance_path := to_json_pointer e.instance_path
    schema_path := to_json_pointer e.schema_path }

/-- Resolution of `--max-depth` (src/main.rs lines 49-55): an explicit
value must parse as a `usize`, with the failure message naming the flag and
the raw string; an absent value resolves to `None` (unbounded). -/
def resolveMaxDepth (raw : Option String) : Except String (Option Nat) :=
  match raw with
  | some s =>
    match parseUsize s with
    | some n => .ok (some n)
    | none => .error ("Failed to parse max depth: " ++ s)
  | none => .ok none

/-- Resolution of `--max-errors` (src/main.rs lines 57-72): an explicit
value must parse as a `usize` (quiet or not); an absent value resolves to
`Some 1` under `--quiet` and to `None` (unbounded) otherwise. -/
def resolveMaxErrors (raw : Option String) (quiet : Bool) : Except String (Option Nat) :=
  match raw with
  | some s =>
    match parseUsize s with
    | some n => .ok (some n)
    | none => .error ("Failed to parse max errors: " ++ s)
  | none => .ok (if quiet then some 1 else none)

/-- An input byte source of the driver: a named file or standard input. -/
inductive Source where
  | file (path : String)
  | stdin
deriving DecidableEq, Repr

/-- The source the schema is read from (src/main.rs lines 76-79): the
positional `schema` argument is always opened as a file path. -/
def schemaSource (schemaArg : String) : Source :=
  .file schemaArg

/-- The source instances are read from (src/main.rs lines 81-87): a file
when the optional `instances` argument is present, standard input
otherwise. -/
def instancesSource (instancesArg : Option String) : Source :=
  match instancesArg with
  | some f => .file f
  | none => .stdin

/-- Outcome of the instance loop of src/main.rs lines 112-137. -/
inductive LoopOut where
  | ok
  | failed
  | fatal (msg : String)
deriving DecidableEq, Repr

/-- Observable result of the instance loop: its outcome, the error
indicator arrays printed to standard output, the per-instance error lists
the validator returned, and the number of instances parsed. -/
structure LoopResult where
  out : LoopOut
  printed : List (List ErrorIndicator)
  collected : List (List ValidationError)
  parsed : Nat

/-- The instance loop of src/main.rs lines 112-137.  Each stream item is
the result of parsing one instance; a parse failure or a fatal validator
error aborts the run with a diagnostic; a non-empty error list prints one
indicator array (unless quiet) and exits with status 1 immediately; a
clean instance continues the loop. -/
def processInstances {Inst : Type} (quiet : Bool)
    (validate : Inst → Except String (List ValidationError)) :
    List (Except String Inst) → LoopResult
  | [] => { out := .ok, printed := [], collected := [], parsed := 0 }
  | item :: rest =>
    match item with
    | .error _ =>
      { out := .fatal "Failed to parse instance", printed := [], collected := [], parsed := 0 }
    | .ok inst =>
      match validate inst with
      | .error _ =>
        { out := .fatal "Failed to validate instance", printed := [], collected := [], parsed := 1 }
      | .ok errors =>
        if errors.isEmpty then
          let r := processInstances quiet validate rest
          { out := r.out, printed := r.printed, collected := errors :: r.collected,
            parsed := r.parsed + 1 }
        else
          { out := .failed
            printed := if quiet then [] else [errors.map toIndicator]
            collected := [errors]
            parsed := 1 }

/-- Observable result of one full run of `main`: the process exit code,
the fatal diagnostic printed to the error stream (if any), the error
indicator arrays printed to standard output, whether the schema and
instances sources were opened, the validator verdicts collected, and the
number of instances parsed. -/
structure RunResult where
  exitCode : Nat
  stderr : Option String
  printed : List (List ErrorIndicator)
  opened : List Source
  collected : List (List ValidationError)
  instancesParsed : Nat

/-- The driver `main` of src/main.rs, parameterised over the external
`jtd` collaborators: `schemaResult` abstracts lines 89-101 (JSON parse of
the schema, conversion to `jtd::Schema`, and the structural-validity
check, any of which may fail), and `validate` abstracts
`Validator { max_depth, max_errors }.validate(&schema, &instance)`.
Control flow follows the source: flags are resolved first (lines 46-72),
then the two input sources are opened (lines 74-87), then the schema is
ingested (lines 89-101), and only then does the instance loop run
(lines 110-137).  A fatal error propagated out of `main` exits with
code 1 and a diagnostic on the error stream. -/
def runMain {Schema Inst : Type}
    (rawMaxDepth rawMaxErrors : Option String) (quiet : Bool)
    (schemaArg : String) (instancesArg : Option String)
    (schemaResult : Except String Schema)
    (validate : Option Nat → Option Nat → Schema → Inst → Except String (List ValidationError))
    (stream : List (Except String Inst)) : RunResult :=
  match resolveMaxDepth rawMaxDepth with
  | .error e =>
    { exitCode := 1, stderr := some e, printed := [], opened := [],
      collected := [], instancesParsed := 0 }
  | .ok maxDepth =>
    match resolveMaxErrors rawMaxErrors quiet with
    | .error e =>
      { exitCode := 1, stderr := some e, printed := [], opened := [],
        collected := [], instancesParsed := 0 }
    | .ok maxErrors =>
      let opened := [schemaSource schemaArg, instancesSource instancesArg]
      match schemaResult with
      | .error e =>
        { exitCode := 1, stderr := some e, printed := [], opened := opened,
          collected := [], instancesParsed := 0 }
      | .ok schema =>
        let r := processInstances quiet (validate maxDepth maxErrors schema) stream
        { exitCode := match r.out with | .ok => 0 | _ => 1
          stderr := match r.out with | .fatal m => some m | _ => none
          printed := r.printed
          opened := opened
          collected := r.collected
          instancesParsed := r.parsed }

/-- A minimal JSON value type for concrete instances (the driver is
polymorphic in the instance type; arrays and objects are not needed by
the runs verified here). -/
inductive Json where
  | null
  | bool (b : Bool)
  | num (n : Int)
  | str (s : String)
deriving DecidableEq, Repr

/-- Modelled from the spec: the external `jtd` validator's behaviour for
the schema `{"type":"string"}` (the validator itself lives in the `jtd`
crate, outside this repository).  Per the spec's example, a string
instance yields no errors, and any other instance yields exactly one
error whose instance path and schema path are both empty. -/
def typeStringValidator (_maxDepth _maxErrors : Option Nat) (_schema : Unit) (j : Json) :
    Except String (List ValidationError) :=
  match j with
  | .str _ => .ok []
  | _ => .ok [{ instance_path := [], schema_path := [] }]

theorem dropPat_cons_ne (q : Char) (qs : List Char) (c : Char) (cs : List Char) (h : c ≠ q) :
    dropPat (q :: qs) (c :: cs) = none := by
  simp [dropPat, h]

theorem charMap_append (f : Char → List Char) (a b : List Char) :
    charMap f (a ++ b) = charMap f a ++ charMap f b := by
  induction a with
  | nil => simp [charMap]
  | cons c cs ih => simp [charMap, ih]

theorem charMap_charMap (f g : Char → List Char) (s : List Char) :
    charMap g (charMap f s) = charMap (fun c => charMap g (f c)) s := by
  induction s with
  | nil => simp [charMap]
  | cons c cs ih => simp [charMap, charMap_append, ih]

theorem replaceAll_one (p : Char) (repl : List Char) (s : List Char) :
    replaceAll p [] repl s = charMap (fun c => if c = p then repl else [c]) s := by
  induction s with
  | nil => simp [replaceAll_nil, charMap]
  | cons c cs ih =>
    by_cases hc : c = p
    · subst hc
      have hd : dropPat [c] (c :: cs) = some cs := by simp [dropPat]
      rw [replaceAll_cons_pos _ _ _ _ _ _ hd, ih]
      simp [charMap]
    · have hd : dropPat [p] (c :: cs) = none := dropPat_cons_ne _ _ _ _ hc
      rw [replaceAll_cons_neg _ _ _ _ _ hd, ih]
      simp [charMap, hc]

theorem escapeSegment_eq_spec (s : List Char) : escapeSegment s = escapeSegmentSpec s := by
  unfold escapeSegment escapeSegmentSpec
  rw [replaceAll_one, replaceAll_one, charMap_charMap]
  congr 1
  funext c
  by_cases h0 : c = '~'
  · subst h0
    decide
  · by_cases h1 : c = '/'
    · subst h1
      decide
    · simp [charMap, h0, h1]

theorem escapeSegment_eq_spec_funext : escapeSegment = escapeSegmentSpec :=
  funext escapeSegment_eq_spec

theorem slash_not_mem_escapeSegmentSpec (s : List Char) : '/' ∉ escapeSegmentSpec s := by
  induction s with
  | nil => simp [escapeSegmentSpec, charMap]
  | cons c cs ih =>
    simp only [escapeSegmentSpec, charMap] at ih ⊢
    intro hmem
    rcases List.mem_append.mp hmem with hin | hin
    · by_cases h0 : c = '~'
      · subst h0
        exact absurd hin (by decide)
      · by_cases h1 : c = '/'
        · subst h1
          exact absurd hin (by decide)
        · rw [if_neg h0, if_neg h1, List.mem_singleton] at hin
          exact h1 hin.symm
    · exact ih hin

theorem unescape_step1 (s : List Char) :
    replaceAll '~' ['1'] ['/'] (escapeSegmentSpec s)
      = charMap (fun c => if c = '~' then ['~', '0'] else [c]) s := by
  induction s with
  | nil => simp [escapeSegmentSpec, charMap, replaceAll_nil]
  | cons c cs ih =>
    by_cases h0 : c = '~'
    · subst h0
      have e1 : escapeSegmentSpec ('~' :: cs) = '~' :: '0' :: escapeSegmentSpec cs := rfl
      have hd1 : dropPat ['~', '1'] ('~' :: '0' :: escapeSegmentSpec cs) = none := rfl
      have hd2 : dropPat ['~', '1'] ('0' :: escapeSegmentSpec cs) = none := rfl
      rw [e1, replaceAll_cons_neg _ _ _ _ _ hd1, replaceAll_cons_neg _ _ _ _ _ hd2, ih]
      simp [charMap]
    · by_cases h1 : c = '/'
      · subst h1
        have e1 : escapeSegmentSpec ('/' :: cs) = '~' :: '1' :: escapeSegmentSpec cs := rfl
        have hd : dropPat ['~', '1'] ('~' :: '1' :: escapeSegmentSpec cs)
            = some (escapeSegmentSpec cs) := rfl
        rw [e1, replaceAll_cons_pos _ _ _ _ _ _ hd, ih]
        simp [charMap]
      · have e1 : escapeSegmentSpec (c :: cs) = c :: escapeSegmentSpec cs := by
          simp [escapeSegmentSpec, charMap, h0, h1]
        have hd : dropPat ['~', '1'] (c :: escapeSegmentSpec cs) = none :=
          dropPat_cons_ne _ _ _ _ h0
        rw [e1, replaceAll_cons_neg _ _ _ _ _ hd, ih]
        simp [charMap, h0]

theorem unescape_step2 (s : List Char) :
    replaceAll '~' ['0'] ['~'] (charMap (fun c => if c = '~' then ['~', '0'] else [c]) s)
      = s := by
  induction s with
  | nil => simp [charMap, replaceAll_nil]
  | cons c cs ih =>
    by_cases h0 : c = '~'
    · subst h0
      have e1 : charMap (fun c => if c = '~' then ['~', '0'] else [c]) ('~' :: cs)
          = '~' :: '0' :: charMap (fun c => if c = '~' then ['~', '0'] else [c]) cs := rfl
      have hd : dropPat ['~', '0']
          ('~' :: '0' :: charMap (fun c => if c = '~' then ['~', '0'] else [c]) cs)
          = some (charMap (fun c => if c = '~' then ['~', '0'] else [c]) cs) := rfl
      rw [e1, replaceAll_cons_pos _ _ _ _ _ _ hd, ih]
      rfl
    · have e1 : charMap (fun c => if c = '~' then ['~', '0'] else [c]) (c :: cs)
          = c :: charMap (fun c => if c = '~' then ['~', '0'] else [c]) cs := by
        simp [charMap, h0]
      have hd : dropPat ['~', '0'] (c :: charMap (fun c => if c = '~' then ['~', '0'] else [c]) cs)
          = none := dropPat_cons_ne _ _ _ _ h0
      rw [e1, replaceAll_cons_neg _ _ _ _ _ hd, ih]

theorem unescape_escape (s : List Char) : unescapeSegment (escapeSegment s) = s := by
  rw [escapeSegment_eq_spec]
  unfold unescapeSegment
  rw [unescape_step1, unescape_step2]

/-- C2: `to_json_pointer` renders a path as a JSON Pointer by escaping each
segment (every `~` becomes `~0` first, then every `/` becomes `~1`, which
together amount to the character-wise escaping `escapeSegmentSpec`),
joining the escaped segments with `/`, and prefixing a single leading `/`;
the empty path renders as the empty string, not `/`. -/
theorem C2_canonicalization (path : List (List Char)) :
    to_json_pointer path
        = (if path = [] then []
           else '/' :: List.intercalate ['/'] (path.map escapeSegmentSpec))
      ∧ to_json_pointer [] = []
      ∧ to_json_pointer [] ≠ ['/'] := by
  refine ⟨?_, rfl, by decide⟩
  unfold to_json_pointer
  rw [escapeSegment_eq_spec_funext]

/-- C3: splitting the pointer produced by `to_json_pointer` on its
unescaped `/` separators and unescaping each piece in reverse order
(`~1` back to `/`, then `~0` back to `~`) reconstructs a non-empty
segment sequence exactly; in particular the segments `a/b` and `c~d`
produce the pointer `/a~1b/c~0d`. -/
theorem C3_round_trip (segs : List (List Char)) (h : segs ≠ []) :
    fromJsonPointer (to_json_pointer segs) = segs
      ∧ to_json_pointer [['a', '/', 'b'], ['c', '~', 'd']]
          = ['/', 'a', '~', '1', 'b', '/', 'c', '~', '0', 'd'] := by
  constructor
  · have hne : segs.map escapeSegment ≠ [] := by
      simpa using h
    have hx : ∀ l ∈ segs.map escapeSegment, '/' ∉ l := by
      intro l hl
      rcases List.mem_map.mp hl with ⟨a, _, rfl⟩
      rw [escapeSegment_eq_spec]
      exact slash_not_mem_escapeSegmentSpec a
    have h1 : to_json_pointer segs
        = '/' :: List.intercalate ['/'] (segs.map escapeSegment) := by
      unfold to_json_pointer
      rw [if_neg h]
    rw [h1]
    unfold fromJsonPointer
    rw [if_neg (List.cons_ne_nil _ _)]
    have hsplit : ('/' :: List.intercalate ['/'] (segs.map escapeSegment)).splitOn '/'
        = [] :: (List.intercalate ['/'] (segs.map escapeSegment)).splitOn '/' := by
      simp [List.splitOn]
    rw [hsplit, List.tail_cons, List.splitOn_intercalate _ '/' hx hne, List.map_map]
    have hcomp : unescapeSegment ∘ escapeSegment = id := funext fun s => unescape_escape s
    rw [hcomp, List.map_id]
  · have h1 : to_json_pointer [['a', '/', 'b'], ['c', '~', 'd']]
        = if ([['a', '/', 'b'], ['c', '~', 'd']] : List (List Char)) = [] then []
          else '/' :: List.intercalate ['/']
            ([['a', '/', 'b'], ['c', '~', 'd']].map escapeSegmentSpec) := by
      unfold to_json_pointer
      rw [escapeSegment_eq_spec_funext]
    rw [h1]
    decide

/-- C3 witness: the round trip instantiated at the segments `a/b` and
`c~d`. -/
theorem C3_round_trip_witness :
    fromJsonPointer (to_json_pointer [['a', '/', 'b'], ['c', '~', 'd']])
        = [['a', '/', 'b'], ['c', '~', 'd']]
      ∧ to_json_pointer [['a', '/', 'b'], ['c', '~', 'd']]
          = ['/', 'a', '~', '1', 'b', '/', 'c', '~', '0', 'd'] :=
  C3_round_trip [['a', '/', 'b'], ['c', '~', 'd']] (by decide)

theorem processInstances_nil {Inst : Type} (quiet : Bool)
    (v : Inst → Except String (List ValidationError)) :
    processInstances quiet v [] = { out := .ok, printed := [], collected := [], parsed := 0 } :=
  rfl

theorem processInstances_clean_cons {Inst : Type} (quiet : Bool)
    (v : Inst → Except String (List ValidationError)) (inst : Inst)
    (rest : List (Except String Inst)) (hv : v inst = .ok []) :
    processInstances quiet v (.ok inst :: rest)
      = { out := (processInstances quiet v rest).out
          printed := (processInstances quiet v rest).printed
          collected := [] :: (processInstances quiet v rest).collected
          parsed := (processInstances quiet v rest).parsed + 1 } := by
  simp [processInstances, hv]

theorem processInstances_fail_cons {Inst : Type} (quiet : Bool)
    (v : Inst → Except String (List ValidationError)) (inst : Inst)
    (rest : List (Except String Inst)) (errs : List ValidationError)
    (hv : v inst = .ok errs) (hne : errs ≠ []) :
    processInstances quiet v (.ok inst :: rest)
      = { out := .failed
          printed := if quiet then [] else [errs.map toIndicator]
          collected := [errs]
          parsed := 1 } := by
  simp [processInstances, hv, hne]

theorem processInstances_parse_error_cons {Inst : Type} (quiet : Bool)
    (v : Inst → Except String (List ValidationError)) (e : String)
    (rest : List (Except String Inst)) :
    processInstances quiet v (.error e :: rest)
      = { out := .fatal "Failed to parse instance", printed := [], collected := [], parsed := 0 } :=
  rfl

theorem processInstances_fatal_cons {Inst : Type} (quiet : Bool)
    (v : Inst → Except String (List ValidationError)) (inst : Inst)
    (rest : List (Except String Inst)) (e : String) (hv : v inst = .error e) :
    processInstances quiet v (.ok inst :: rest)
      = { out := .fatal "Failed to validate instance", printed := [], collected := [],
          parsed := 1 } := by
  simp [processInstances, hv]

theorem processInstances_printed_length_le_one {Inst : Type} (quiet : Bool)
    (v : Inst → Except String (List ValidationError)) (stream : List (Except String Inst)) :
    (processInstances quiet v stream).printed.length ≤ 1 := by
  induction stream with
  | nil => simp [processInstances_nil]
  | cons item rest ih =>
    cases item with
    | error e => simp [processInstances_parse_error_cons]
    | ok inst =>
      cases hv : v inst with
      | error e => simp [processInstances_fatal_cons quiet v inst rest e hv]
      | ok errs =>
        by_cases hne : errs = []
        · subst hne
          rw [processInstances_clean_cons quiet v inst rest hv]
          exact ih
        · rw [processInstances_fail_cons quiet v inst rest errs hv hne]
          cases quiet <;> simp

theorem processInstances_quiet_printed_nil {Inst : Type}
    (v : Inst → Except String (List ValidationError)) (stream : List (Except String Inst)) :
    (processInstances true v stream).printed = [] := by
  induction stream with
  | nil => simp [processInstances_nil]
  | cons item rest ih =>
    cases item with
    | error e => simp [processInstances_parse_error_cons]
    | ok inst =>
      cases hv : v inst with
      | error e => simp [processInstances_fatal_cons true v inst rest e hv]
      | ok errs =>
        by_cases hne : errs = []
        · subst hne
          rw [processInstances_clean_cons true v inst rest hv]
          exact ih
        · rw [processInstances_fail_cons true v inst rest errs hv hne]
          simp

theorem processInstances_out_ok_iff {Inst : Type} (quiet : Bool)
    (v : Inst → Except String (List ValidationError)) (stream : List (Except String Inst)) :
    (processInstances quiet v stream).out = .ok
      ↔ ∀ x ∈ stream, ∃ i, x = .ok i ∧ v i = .ok [] := by
  induction stream with
  | nil => simp [processInstances_nil]
  | cons item rest ih =>
    cases item with
    | error e =>
      rw [processInstances_parse_error_cons]
      simp
    | ok inst =>
      cases hv : v inst with
      | error e =>
        rw [processInstances_fatal_cons quiet v inst rest e hv]
        constructor
        · intro h
          cases h
        · intro h
          rcases h (.ok inst) (by simp) with ⟨i, hi, hvi⟩
          cases hi
          rw [hv] at hvi
          cases hvi
      | ok errs =>
        by_cases hne : errs = []
        · subst hne
          rw [processInstances_clean_cons quiet v inst rest hv]
          simp only [List.mem_cons]
          constructor
          · intro h x hx
            rcases hx with hx | hx
            · exact ⟨inst, hx, hv⟩
            · exact (ih.mp h) x hx
          · intro h
            refine ih.mpr ?_
            intro x hx
            exact h x (Or.inr hx)
        · rw [processInstances_fail_cons quiet v inst rest errs hv hne]
          constructor
          · intro h
            cases h
          · intro h
            rcases h (.ok inst) (by simp) with ⟨i, hi, hvi⟩
            cases hi
            rw [hv] at hvi
            cases hvi
            exact absurd rfl hne

theorem processInstances_collected_sound {Inst : Type} (quiet : Bool)
    (v : Inst → Except String (List ValidationError)) (stream : List (Except String Inst)) :
    ∀ errs ∈ (processInstances quiet v stream).collected, ∃ i, v i = .ok errs := by
  induction stream with
  | nil => simp [processInstances_nil]
  | cons item rest ih =>
    cases item with
    | error e => simp [processInstances_parse_error_cons]
    | ok inst =>
      cases hv : v inst with
      | error e => simp [processInstances_fatal_cons quiet v inst rest e hv]
      | ok errs0 =>
        by_cases hne : errs0 = []
        · subst hne
          rw [processInstances_clean_cons quiet v inst rest hv]
          intro errs hmem
          rcases List.mem_cons.mp hmem with h | h
          · exact ⟨inst, by rw [hv, h]⟩
          · exact ih errs h
        · rw [processInstances_fail_cons quiet v inst rest errs0 hv hne]
          intro errs hmem
          rcases List.mem_cons.mp hmem with h | h
          · exact ⟨inst, by rw [hv, h]⟩
          · cases h

theorem processInstances_failed_of_collected_nonempty {Inst : Type} (quiet : Bool)
    (v : Inst → Except String (List ValidationError)) (stream : List (Except String Inst)) :
    (∃ errs ∈ (processInstances quiet v stream).collected, errs ≠ []) →
      (processInstances quiet v stream).out = .failed := by
  induction stream with
  | nil => simp [processInstances_nil]
  | cons item rest ih =>
    cases item with
    | error e => simp [processInstances_parse_error_cons]
    | ok inst =>
      cases hv : v inst with
      | error e => simp [processInstances_fatal_cons quiet v inst rest e hv]
      | ok errs0 =>
        by_cases hne : errs0 = []
        · subst hne
          rw [processInstances_clean_cons quiet v inst rest hv]
          rintro ⟨errs, hmem, hne2⟩
          rcases List.mem_cons.mp hmem with h | h
          · exact absurd h.symm (by exact fun hc => hne2 hc.symm)
          · exact ih ⟨errs, h, hne2⟩
        · rw [processInstances_fail_cons quiet v inst rest errs0 hv hne]
          intro _
          rfl

theorem processInstances_clean_append {Inst : Type} (quiet : Bool)
    (v : Inst → Except String (List ValidationError)) (pre tail : List (Except String Inst))
    (hpre : ∀ x ∈ pre, ∃ i, x = .ok i ∧ v i = .ok []) :
    processInstances quiet v (pre ++ tail)
      = { out := (processInstances quiet v tail).out
          printed := (processInstances quiet v tail).printed
          collected := List.replicate pre.length [] ++ (processInstances quiet v tail).collected
          parsed := pre.length + (processInstances quiet v tail).parsed } := by
  induction pre with
  | nil => simp
  | cons x pre ih =>
    rcases hpre x (by simp) with ⟨i, hx, hvi⟩
    subst hx
    rw [List.cons_append, processInstances_clean_cons quiet v i (pre ++ tail) hvi,
      ih (fun y hy => hpre y (by simp [hy]))]
    simp [List.replicate_succ]
    omega

theorem runMain_maxDepth_error {Schema Inst : Type}
    (rawMaxDepth rawMaxErrors : Option String) (quiet : Bool)
    (schemaArg : String) (instancesArg : Option String)
    (schemaResult : Except String Schema)
    (validate : Option Nat → Option Nat → Schema → Inst → Except String (List ValidationError))
    (stream : List (Except String Inst)) (e : String)
    (hmd : resolveMaxDepth rawMaxDepth = .error e) :
    runMain rawMaxDepth rawMaxErrors quiet schemaArg instancesArg schemaResult validate stream
      = { exitCode := 1, stderr := some e, printed := [], opened := [],
          collected := [], instancesParsed := 0 } := by
  simp [runMain, hmd]

theorem runMain_maxErrors_error {Schema Inst : Type}
    (rawMaxDepth rawMaxErrors : Option String) (quiet : Bool)
    (schemaArg : String) (instancesArg : Option String)
    (schemaResult : Except String Schema)
    (validate : Option Nat → Option Nat → Schema → Inst → Except String (List ValidationError))
    (stream : List (Except String Inst)) (md : Option Nat) (e : String)
    (hmd : resolveMaxDepth rawMaxDepth = .ok md)
    (hme : resolveMaxErrors rawMaxErrors quiet = .error e) :
    runMain rawMaxDepth rawMaxErrors quiet schemaArg instancesArg schemaResult validate stream
      = { exitCode := 1, stderr := some e, printed := [], opened := [],
          collected := [], instancesParsed := 0 } := by
  simp [runMain, hmd, hme]

theorem runMain_schema_error {Schema Inst : Type}
    (rawMaxDepth rawMaxErrors : Option String) (quiet : Bool)
    (schemaArg : String) (instancesArg : Option String)
    (schemaResult : Except String Schema)
    (validate : Option Nat → Option Nat → Schema → Inst → Except String (List ValidationError))
    (stream : List (Except String Inst)) (md me : Option Nat) (e : String)
    (hmd : resolveMaxDepth rawMaxDepth = .ok md)
    (hme : resolveMaxErrors rawMaxErrors quiet = .ok me)
    (hs : schemaResult = .error e) :
    runMain rawMaxDepth rawMaxErrors quiet schemaArg instancesArg schemaResult validate stream
      = { exitCode := 1, stderr := some e, printed := [],
          opened := [schemaSource schemaArg, instancesSource instancesArg],
          collected := [], instancesParsed := 0 } := by
  simp [runMain, hmd, hme, hs]

theorem runMain_loop {Schema Inst : Type}
    (rawMaxDepth rawMaxErrors : Option String) (quiet : Bool)
    (schemaArg : String) (instancesArg : Option String)
    (schemaResult : Except String Schema)
    (validate : Option Nat → Option Nat → Schema → Inst → Except String (List ValidationError))
    (stream : List (Except String Inst)) (md me : Option Nat) (sch : Schema)
    (hmd : resolveMaxDepth rawMaxDepth = .ok md)
    (hme : resolveMaxErrors rawMaxErrors quiet = .ok me)
    (hs : schemaResult = .ok sch) :
    runMain rawMaxDepth rawMaxErrors quiet schemaArg instancesArg schemaResult validate stream
      = { exitCode :=
            match (processInstances quiet (validate md me sch) stream).out with
            | .ok => 0
            | _ => 1
          stderr :=
            match (processInstances quiet (validate md me sch) stream).out with
            | .fatal m => some m
            | _ => none
          printed := (processInstances quiet (validate md me sch) stream).printed
          opened := [schemaSource schemaArg, instancesSource instancesArg]
          collected := (processInstances quiet (validate md me sch) stream).collected
          instancesParsed := (processInstances quiet (validate md me sch) stream).parsed } := by
  simp [runMain, hmd, hme, hs]

/-- C4: options resolution — an explicitly given parseable `--max-errors`
value is used as-is even under `--quiet`; an absent `--max-errors`
resolves to 1 under `--quiet` and to unbounded otherwise; an absent
`--max-depth` resolves to unbounded independently of the other flags. -/
theorem C4_options_resolution (rawMaxDepth rawMaxErrors : Option String) (quiet : Bool) :
    (∀ s n, rawMaxErrors = some s → parseUsize s = some n →
        resolveMaxErrors rawMaxErrors quiet = .ok (some n))
      ∧ (rawMaxErrors = none → quiet = true → resolveMaxErrors rawMaxErrors quiet = .ok (some 1))
      ∧ (rawMaxErrors = none → quiet = false → resolveMaxErrors rawMaxErrors quiet = .ok none)
      ∧ (rawMaxDepth = none → resolveMaxDepth rawMaxDepth = .ok none) := by
  refine ⟨?_, ?_, ?_, ?_⟩
  · intro s n hraw hparse
    subst hraw
    simp [resolveMaxErrors, hparse]
  · intro hraw hq
    subst hraw
    subst hq
    rfl
  · intro hraw hq
    subst hraw
    subst hq
    rfl
  · intro hraw
    subst hraw
    rfl

/-- C4 witness: the four resolution rules at concrete inputs. -/
theorem C4_options_resolution_witness :
    resolveMaxErrors (some "5") true = .ok (some 5)
      ∧ resolveMaxErrors none true = .ok (some 1)
      ∧ resolveMaxErrors none false = .ok none
      ∧ resolveMaxDepth none = .ok none :=
  ⟨(C4_options_resolution none (some "5") true).1 "5" 5 rfl (by decide),
    (C4_options_resolution none none true).2.1 rfl rfl,
    (C4_options_resolution none none false).2.2.1 rfl rfl,
    (C4_options_resolution none none true).2.2.2 rfl⟩

/-- C5: when schema ingestion fails (malformed JSON, conversion failure,
or a failed structural-validity check), the run terminates with a
diagnostic before any instance is parsed or validated — for every
instance stream, including empty or malformed ones. -/
theorem C5_schema_before_instances {Schema Inst : Type}
    (rawMaxDepth rawMaxErrors : Option String) (quiet : Bool)
    (schemaArg : String) (instancesArg : Option String)
    (schemaResult : Except String Schema)
    (validate : Option Nat → Option Nat → Schema → Inst → Except String (List ValidationError))
    (stream : List (Except String Inst)) (md me : Option Nat) (e : String)
    (hmd : resolveMaxDepth rawMaxDepth = .ok md)
    (hme : resolveMaxErrors rawMaxErrors quiet = .ok me)
    (hs : schemaResult = .error e) :
    runMain rawMaxDepth rawMaxErrors quiet schemaArg instancesArg schemaResult validate stream
      = { exitCode := 1, stderr := some e, printed := [],
          opened := [schemaSource schemaArg, instancesSource instancesArg],
          collected := [], instancesParsed := 0 } :=
  runMain_schema_error _ _ _ _ _ _ _ _ _ _ _ hmd hme hs

/-- C5 witness: a failing schema with a malformed instance stream parses
and validates zero instances. -/
theorem C5_schema_before_instances_witness :
    runMain none none false "schema.jtd" none
        (Except.error "Failed to parse schema") typeStringValidator
        [Except.error "Failed to parse instance", Except.ok (Json.num 123)]
      = { exitCode := 1, stderr := some "Failed to parse schema", printed := [],
          opened := [Source.file "schema.jtd", Source.stdin],
          collected := [], instancesParsed := 0 } :=
  C5_schema_before_instances none none false "schema.jtd" none
    (Except.error "Failed to parse schema") typeStringValidator
    [Except.error "Failed to parse instance", Except.ok (Json.num 123)]
    none none "Failed to parse schema" rfl rfl rfl

/-- C6: a malformed `--max-depth` or `--max-errors` value makes the run
fail with a diagnostic naming the flag and the offending raw string,
before any input source is opened and before any instance is parsed
(when both flags are malformed, `--max-depth` is reported, as it is
parsed first). -/
theorem C6_invalid_option {Schema Inst : Type} (quiet : Bool)
    (schemaArg : String) (instancesArg : Option String)
    (schemaResult : Except String Schema)
    (validate : Option Nat → Option Nat → Schema → Inst → Except String (List ValidationError))
    (stream : List (Except String Inst)) :
    (∀ s rawMaxErrors, parseUsize s = none →
        runMain (some s) rawMaxErrors quiet schemaArg instancesArg schemaResult validate stream
          = { exitCode := 1, stderr := some ("Failed to parse max depth: " ++ s),
              printed := [], opened := [], collected := [], instancesParsed := 0 })
      ∧ (∀ rawMaxDepth md s, resolveMaxDepth rawMaxDepth = .ok md → parseUsize s = none →
          runMain rawMaxDepth (some s) quiet schemaArg instancesArg schemaResult validate stream
            = { exitCode := 1, stderr := some ("Failed to parse max errors: " ++ s),
                printed := [], opened := [], collected := [], instancesParsed := 0 }) := by
  constructor
  · intro s rawMaxErrors hparse
    have hmd : resolveMaxDepth (some s) = .error ("Failed to parse max depth: " ++ s) := by
      simp [resolveMaxDepth, hparse]
    exact runMain_maxDepth_error _ _ _ _ _ _ _ _ _ hmd
  · intro rawMaxDepth md s hmd hparse
    have hme : resolveMaxErrors (some s) quiet
        = .error ("Failed to parse max errors: " ++ s) := by
      simp [resolveMaxErrors, hparse]
    exact runMain_maxErrors_error _ _ _ _ _ _ _ _ _ _ hmd hme

/-- C6 witness: the raw string `abc` fails both flags, with no source
opened. -/
theorem C6_invalid_option_witness :
    runMain (some "abc") none false "schema.jtd" none
        (Except.ok ()) typeStringValidator []
      = { exitCode := 1, stderr := some ("Failed to parse max depth: " ++ "abc"),
          printed := [], opened := [], collected := [], instancesParsed := 0 }
    ∧ runMain none (some "abc") false "schema.jtd" none
        (Except.ok ()) typeStringValidator []
      = { exitCode := 1, stderr := some ("Failed to parse max errors: " ++ "abc"),
          printed := [], opened := [], collected := [], instancesParsed := 0 } :=
  ⟨(C6_invalid_option false "schema.jtd" none (Except.ok ()) typeStringValidator []).1
      "abc" none (by decide),
    (C6_invalid_option false "schema.jtd" none (Except.ok ()) typeStringValidator []).2
      none none "abc" rfl (by decide)⟩

/-- C1 counterexample: for schema `{"type":"string"}` and the instance
stream `"abc" 123 "def"`, the driver does not validate all three
instances: the loop calls `exit(1)` right after the second (failing)
instance, so only two validator verdicts are ever obtained. -/
theorem C1_counterexample :
    (runMain none none false "schema.jtd" none (Except.ok ())
        typeStringValidator
        [Except.ok (Json.str "abc"), Except.ok (Json.num 123),
          Except.ok (Json.str "def")]).collected.length = 2
      ∧ ¬ (runMain none none false "schema.jtd" none (Except.ok ())
          typeStringValidator
          [Except.ok (Json.str "abc"), Except.ok (Json.num 123),
            Except.ok (Json.str "def")]).collected.length = 3 := by
  constructor
  · rfl
  · decide

/-- C1 (amended): whenever an instance produces one or more ordinary
validation errors, the driver reports exactly that instance's
error-indicator array (nothing when quiet) and then exits with code 1
immediately, with no fatal diagnostic and without processing the
remaining instances in the stream — for every flag combination, schema,
validator, clean prefix and remainder; in particular, for schema
`{"type":"string"}` and instance stream `"abc" 123 "def"`, only the
first two instances are validated, exactly one error-indicator array
with a single indicator object (`instancePath` and `schemaPath` both
empty) is printed for the second instance, the third instance is never
parsed or validated, and the exit code is 1. -/
theorem C1_first_failure_exits {Schema Inst : Type}
    (rawMaxDepth rawMaxErrors : Option String) (quiet : Bool)
    (schemaArg : String) (instancesArg : Option String)
    (schemaResult : Except String Schema)
    (validate : Option Nat → Option Nat → Schema → Inst → Except String (List ValidationError))
    (stream : List (Except String Inst)) :
    (∀ md me sch pre rest (inst : Inst) errs,
        resolveMaxDepth rawMaxDepth = .ok md →
        resolveMaxErrors rawMaxErrors quiet = .ok me →
        schemaResult = .ok sch →
        stream = pre ++ .ok inst :: rest →
        (∀ x ∈ pre, ∃ i, x = .ok i ∧ validate md me sch i = .ok []) →
        validate md me sch inst = .ok errs → errs ≠ [] →
        (runMain rawMaxDepth rawMaxErrors quiet schemaArg instancesArg schemaResult validate
            stream).exitCode = 1
          ∧ (runMain rawMaxDepth rawMaxErrors quiet schemaArg instancesArg schemaResult
              validate stream).stderr = none
          ∧ (runMain rawMaxDepth rawMaxErrors quiet schemaArg instancesArg schemaResult
              validate stream).printed
            = (if quiet then [] else [errs.map toIndicator])
          ∧ (runMain rawMaxDepth rawMaxErrors quiet schemaArg instancesArg schemaResult
              validate stream).instancesParsed = pre.length + 1
          ∧ (runMain rawMaxDepth rawMaxErrors quiet schemaArg instancesArg schemaResult
              validate stream).collected.length = pre.length + 1)
      ∧ (runMain none none false "schema.jtd" none (Except.ok ())
          typeStringValidator
          [Except.ok (Json.str "abc"), Except.ok (Json.num 123),
            Except.ok (Json.str "def")]).exitCode = 1
      ∧ (runMain none none false "schema.jtd" none (Except.ok ())
          typeStringValidator
          [Except.ok (Json.str "abc"), Except.ok (Json.num 123),
            Except.ok (Json.str "def")]).printed
        = [[{ instance_path := [], schema_path := [] }]]
      ∧ (runMain none none false "schema.jtd" none (Except.ok ())
          typeStringValidator
          [Except.ok (Json.str "abc"), Except.ok (Json.num 123),
            Except.ok (Json.str "def")]).collected.length = 2
      ∧ (runMain none none false "schema.jtd" none (Except.ok ())
          typeStringValidator
          [Except.ok (Json.str "abc"), Except.ok (Json.num 123),
            Except.ok (Json.str "def")]).instancesParsed = 2
      ∧ (runMain none none false "schema.jtd" none (Except.ok ())
          typeStringValidator
          [Except.ok (Json.str "abc"), Except.ok (Json.num 123),
            Except.ok (Json.str "def")]).stderr = none := by
  refine ⟨?_, rfl, by decide, rfl, rfl, rfl⟩
  intro md me sch pre rest inst errs hmd hme hs hstream hpre hv hne
  subst hstream
  rw [runMain_loop _ _ _ _ _ _ _ _ _ _ _ hmd hme hs,
    processInstances_clean_append quiet (validate md me sch) pre _ hpre,
    processInstances_fail_cons quiet (validate md me sch) inst rest errs hv hne]
  refine ⟨by simp, by simp, by simp, by simp, by simp⟩

/-- C1 witness: the amended claim's universal clause instantiated on the
claim's own example, under both quiet mode (nothing printed) and
non-quiet mode (one indicator array with empty pointers printed), both
exiting 1 after two of the three instances. -/
theorem C1_first_failure_exits_witness :
    (runMain none none true "schema.jtd" none (Except.ok ())
        typeStringValidator
        [Except.ok (Json.str "abc"), Except.ok (Json.num 123),
          Except.ok (Json.str "def")]).printed = []
      ∧ (runMain none none true "schema.jtd" none (Except.ok ())
          typeStringValidator
          [Except.ok (Json.str "abc"), Except.ok (Json.num 123),
            Except.ok (Json.str "def")]).exitCode = 1
      ∧ (runMain none none true "schema.jtd" none (Except.ok ())
          typeStringValidator
          [Except.ok (Json.str "abc"), Except.ok (Json.num 123),
            Except.ok (Json.str "def")]).instancesParsed = 2
      ∧ (runMain none none false "schema.jtd" none (Except.ok ())
          typeStringValidator
          [Except.ok (Json.str "abc"), Except.ok (Json.num 123),
            Except.ok (Json.str "def")]).printed
        = [[{ instance_path := [], schema_path := [] }]] := by
  have hq := (C1_first_failure_exits none none true "schema.jtd" none (Except.ok ())
    typeStringValidator
    [Except.ok (Json.str "abc"), Except.ok (Json.num 123), Except.ok (Json.str "def")]).1
    none (some 1) () [Except.ok (Json.str "abc")] [Except.ok (Json.str "def")]
    (Json.num 123) [{ instance_path := [], schema_path := [] }] rfl rfl rfl rfl
    (by
      intro x hx
      rw [List.mem_singleton] at hx
      subst hx
      exact ⟨Json.str "abc", rfl, rfl⟩)
    rfl (by decide)
  have hnq := (C1_first_failure_exits none none false "schema.jtd" none (Except.ok ())
    typeStringValidator
    [Except.ok (Json.str "abc"), Except.ok (Json.num 123), Except.ok (Json.str "def")]).1
    none none () [Except.ok (Json.str "abc")] [Except.ok (Json.str "def")]
    (Json.num 123) [{ instance_path := [], schema_path := [] }] rfl rfl rfl rfl
    (by
      intro x hx
      rw [List.mem_singleton] at hx
      subst hx
      exact ⟨Json.str "abc", rfl, rfl⟩)
    rfl (by decide)
  refine ⟨hq.2.2.1, hq.1, hq.2.2.2.1, ?_⟩
  rw [hnq.2.2.1]
  decide

/-- C7: under `--quiet` with no explicit `--max-errors`, the resolved
error bound is 1, so (for a validator honouring its `max_errors` bound)
at most one error is collected per instance; nothing is ever printed to
standard output; and the exit code is still 1 whenever some instance
produced at least one validation error. -/
theorem C7_quiet_mode {Schema Inst : Type}
    (rawMaxDepth : Option String) (schemaArg : String) (instancesArg : Option String)
    (schemaResult : Except String Schema)
    (validate : Option Nat → Option Nat → Schema → Inst → Except String (List ValidationError))
    (stream : List (Except String Inst))
    (hV : ∀ md sch inst errs, validate md (some 1) sch inst = .ok errs → errs.length ≤ 1) :
    (runMain rawMaxDepth none true schemaArg instancesArg schemaResult validate stream).printed
        = []
      ∧ (∀ errs ∈ (runMain rawMaxDepth none true schemaArg instancesArg schemaResult validate
            stream).collected, errs.length ≤ 1)
      ∧ ((∃ errs ∈ (runMain rawMaxDepth none true schemaArg instancesArg schemaResult validate
            stream).collected, errs ≠ []) →
          (runMain rawMaxDepth none true schemaArg instancesArg schemaResult validate
            stream).exitCode = 1) := by
  have hme : resolveMaxErrors none true = .ok (some 1) := rfl
  cases hmd : resolveMaxDepth rawMaxDepth with
  | error e =>
    rw [runMain_maxDepth_error _ _ _ _ _ _ _ _ _ hmd]
    refine ⟨rfl, ?_, ?_⟩
    · intro errs hmem
      cases hmem
    · rintro ⟨errs, hmem, _⟩
      cases hmem
  | ok md =>
    cases schemaResult with
    | error e =>
      rw [runMain_schema_error _ _ _ _ _ _ _ _ _ _ _ hmd hme rfl]
      refine ⟨rfl, ?_, ?_⟩
      · intro errs hmem
        cases hmem
      · rintro ⟨errs, hmem, _⟩
        cases hmem
    | ok sch =>
      rw [runMain_loop _ _ _ _ _ _ _ _ _ _ _ hmd hme rfl]
      refine ⟨?_, ?_, ?_⟩
      · exact processInstances_quiet_printed_nil _ stream
      · intro errs hmem
        rcases processInstances_collected_sound true (validate md (some 1) sch) stream
          errs hmem with ⟨i, hvi⟩
        exact hV md sch i errs hvi
      · intro hex
        have hout := processInstances_failed_of_collected_nonempty true
          (validate md (some 1) sch) stream hex
        rw [hout]

/-- C7 witness: a one-error-per-instance validator on a single failing
instance prints nothing under quiet mode. -/
theorem C7_quiet_mode_witness :
    (runMain none none true "schema.jtd" none (Except.ok ())
        (fun _ _ _ _ => Except.ok [{ instance_path := [], schema_path := [] }])
        [Except.ok ()]).printed = [] :=
  (C7_quiet_mode none "schema.jtd" none (Except.ok ())
    (fun _ _ _ _ => Except.ok [{ instance_path := [], schema_path := [] }])
    [Except.ok ()]
    (fun _ _ _ errs h => by
      cases h
      decide)).1

/-- C8 counterexample: the schema positional argument given as `-` is not
read from standard input — the driver always opens it as a file (a file
literally named `-`). -/
theorem C8_counterexample :
    schemaSource "-" = Source.file "-" ∧ schemaSource "-" ≠ Source.stdin := by
  refine ⟨rfl, ?_⟩
  decide

/-- C8 (amended): the schema positional argument is always opened as a
file path (`-` receives no special treatment); when the optional
instances argument is absent, instances are read from standard input,
and when it is present they are read from that file. -/
theorem C8_sources :
    (∀ s : String, schemaSource s = Source.file s)
      ∧ instancesSource none = Source.stdin
      ∧ (∀ f : String, instancesSource (some f) = Source.file f) :=
  ⟨fun _ => rfl, rfl, fun _ => rfl⟩

/-- C9: the run exits 0 exactly when the options resolve, the schema
ingests, and every instance in the stream parses and validates cleanly;
it exits 1 with no diagnostic when some instance produced validation
errors; and each fatal category (option-parse, schema ingestion,
instance-parse or validator failure) exits 1 with a human-readable
diagnostic on the error stream, separate from the indicator output. -/
theorem C9_exit_status {Schema Inst : Type}
    (rawMaxDepth rawMaxErrors : Option String) (quiet : Bool)
    (schemaArg : String) (instancesArg : Option String)
    (schemaResult : Except String Schema)
    (validate : Option Nat → Option Nat → Schema → Inst → Except String (List ValidationError))
    (stream : List (Except String Inst)) :
    ((runMain rawMaxDepth rawMaxErrors quiet schemaArg instancesArg schemaResult validate
          stream).exitCode = 0
        ↔ ∃ md me sch, resolveMaxDepth rawMaxDepth = .ok md
            ∧ resolveMaxErrors rawMaxErrors quiet = .ok me
            ∧ schemaResult = .ok sch
            ∧ ∀ x ∈ stream, ∃ i, x = .ok i ∧ validate md me sch i = .ok [])
      ∧ (∀ md me sch, resolveMaxDepth rawMaxDepth = .ok md →
          resolveMaxErrors rawMaxErrors quiet = .ok me → schemaResult = .ok sch →
          (processInstances quiet (validate md me sch) stream).out = .failed →
          (runMain rawMaxDepth rawMaxErrors quiet schemaArg instancesArg schemaResult validate
              stream).exitCode = 1
            ∧ (runMain rawMaxDepth rawMaxErrors quiet schemaArg instancesArg schemaResult
                validate stream).stderr = none)
      ∧ (∀ e, resolveMaxDepth rawMaxDepth = .error e →
          (runMain rawMaxDepth rawMaxErrors quiet schemaArg instancesArg schemaResult validate
              stream).exitCode = 1
            ∧ (runMain rawMaxDepth rawMaxErrors quiet schemaArg instancesArg schemaResult
                validate stream).stderr = some e)
      ∧ (∀ md e, resolveMaxDepth rawMaxDepth = .ok md →
          resolveMaxErrors rawMaxErrors quiet = .error e →
          (runMain rawMaxDepth rawMaxErrors quiet schemaArg instancesArg schemaResult validate
              stream).exitCode = 1
            ∧ (runMain rawMaxDepth rawMaxErrors quiet schemaArg instancesArg schemaResult
                validate stream).stderr = some e)
      ∧ (∀ md me e, resolveMaxDepth rawMaxDepth = .ok md →
          resolveMaxErrors rawMaxErrors quiet = .ok me → schemaResult = .error e →
          (runMain rawMaxDepth rawMaxErrors quiet schemaArg instancesArg schemaResult validate
              stream).exitCode = 1
            ∧ (runMain rawMaxDepth rawMaxErrors quiet schemaArg instancesArg schemaResult
                validate stream).stderr = some e)
      ∧ (∀ md me sch m, resolveMaxDepth rawMaxDepth = .ok md →
          resolveMaxErrors rawMaxErrors quiet = .ok me → schemaResult = .ok sch →
          (processInstances quiet (validate md me sch) stream).out = .fatal m →
          (runMain rawMaxDepth rawMaxErrors quiet schemaArg instancesArg schemaResult validate
              stream).exitCode = 1
            ∧ (runMain rawMaxDepth rawMaxErrors quiet schemaArg instancesArg schemaResult
                validate stream).stderr = some m) := by
  refine ⟨?_, ?_, ?_, ?_, ?_, ?_⟩
  · constructor
    · intro h0
      cases hmd : resolveMaxDepth rawMaxDepth with
      | error e =>
        rw [runMain_maxDepth_error _ _ _ _ _ _ _ _ _ hmd] at h0
        simp at h0
      | ok md =>
        cases hme : resolveMaxErrors rawMaxErrors quiet with
        | error e =>
          rw [runMain_maxErrors_error _ _ _ _ _ _ _ _ _ _ hmd hme] at h0
          simp at h0
        | ok me =>
          cases hs : schemaResult with
          | error e =>
            rw [runMain_schema_error _ _ _ _ _ _ _ _ _ _ _ hmd hme hs] at h0
            simp at h0
          | ok sch =>
            rw [runMain_loop _ _ _ _ _ _ _ _ _ _ _ hmd hme hs] at h0
            cases hout : (processInstances quiet (validate md me sch) stream).out with
            | ok =>
              exact ⟨md, me, sch, rfl, rfl, rfl,
                (processInstances_out_ok_iff quiet (validate md me sch) stream).mp hout⟩
            | failed =>
              rw [hout] at h0
              simp at h0
            | fatal m =>
              rw [hout] at h0
              simp at h0
    · rintro ⟨md, me, sch, hmd, hme, hs, hclean⟩
      rw [runMain_loop _ _ _ _ _ _ _ _ _ _ _ hmd hme hs]
      have hout : (processInstances quiet (validate md me sch) stream).out = .ok :=
        (processInstances_out_ok_iff quiet (validate md me sch) stream).mpr hclean
      simp [hout]
  · intro md me sch hmd hme hs hfail
    rw [runMain_loop _ _ _ _ _ _ _ _ _ _ _ hmd hme hs]
    simp [hfail]
  · intro e hmd
    rw [runMain_maxDepth_error _ _ _ _ _ _ _ _ _ hmd]
    exact ⟨rfl, rfl⟩
  · intro md e hmd hme
    rw [runMain_maxErrors_error _ _ _ _ _ _ _ _ _ _ hmd hme]
    exact ⟨rfl, rfl⟩
  · intro md me e hmd hme hs
    rw [runMain_schema_error _ _ _ _ _ _ _ _ _ _ _ hmd hme hs]
    exact ⟨rfl, rfl⟩
  · intro md me sch m hmd hme hs hfat
    rw [runMain_loop _ _ _ _ _ _ _ _ _ _ _ hmd hme hs]
    simp [hfat]

/-- C9 witness: a clean one-instance run exits 0, and a schema-ingestion
failure exits 1 with its diagnostic. -/
theorem C9_exit_status_witness :
    (runMain none none false "schema.jtd" none (Except.ok ())
        typeStringValidator [Except.ok (Json.str "abc")]).exitCode = 0
      ∧ (runMain none none false "schema.jtd" none
          (Except.error "Failed to load schema") typeStringValidator []).exitCode = 1
      ∧ (runMain none none false "schema.jtd" none
          (Except.error "Failed to load schema") typeStringValidator []).stderr
        = some "Failed to load schema" := by
  refine ⟨?_, ?_, ?_⟩
  · exact (C9_exit_status none none false "schema.jtd" none (Except.ok ())
      typeStringValidator [Except.ok (Json.str "abc")]).1.mpr
      ⟨none, none, (), rfl, rfl, rfl, by
        intro x hx
        rw [List.mem_singleton] at hx
        subst hx
        exact ⟨Json.str "abc", rfl, rfl⟩⟩
  · exact ((C9_exit_status none none false "schema.jtd" none
      (Except.error "Failed to load schema") typeStringValidator []).2.2.2.2.1
      none none "Failed to load schema" rfl rfl rfl).1
  · exact ((C9_exit_status none none false "schema.jtd" none
      (Except.error "Failed to load schema") typeStringValidator []).2.2.2.2.1
      none none "Failed to load schema" rfl rfl rfl).2

/-- C10: at most one error-indicator array is ever written per run, and
when the stream consists of clean instances followed by a failing one,
the run parses and validates exactly the instances up to and including
the first failing one — independently of what follows it — and exits 1. -/
theorem C10_single_report {Schema Inst : Type}
    (rawMaxDepth rawMaxErrors : Option String) (quiet : Bool)
    (schemaArg : String) (instancesArg : Option String)
    (schemaResult : Except String Schema)
    (validate : Option Nat → Option Nat → Schema → Inst → Except String (List ValidationError))
    (stream : List (Except String Inst)) :
    (runMain rawMaxDepth rawMaxErrors quiet schemaArg instancesArg schemaResult validate
        stream).printed.length ≤ 1
      ∧ (∀ md me sch pre rest (inst : Inst) errs,
          resolveMaxDepth rawMaxDepth = .ok md →
          resolveMaxErrors rawMaxErrors quiet = .ok me →
          schemaResult = .ok sch →
          stream = pre ++ .ok inst :: rest →
          (∀ x ∈ pre, ∃ i, x = .ok i ∧ validate md me sch i = .ok []) →
          validate md me sch inst = .ok errs → errs ≠ [] →
          (runMain rawMaxDepth rawMaxErrors quiet schemaArg instancesArg schemaResult validate
              stream).instancesParsed = pre.length + 1
            ∧ (runMain rawMaxDepth rawMaxErrors quiet schemaArg instancesArg schemaResult
                validate stream).collected.length = pre.length + 1
            ∧ (runMain rawMaxDepth rawMaxErrors quiet schemaArg instancesArg schemaResult
                validate stream).exitCode = 1) := by
  constructor
  · cases hmd : resolveMaxDepth rawMaxDepth with
    | error e =>
      rw [runMain_maxDepth_error _ _ _ _ _ _ _ _ _ hmd]
      simp
    | ok md =>
      cases hme : resolveMaxErrors rawMaxErrors quiet with
      | error e =>
        rw [runMain_maxErrors_error _ _ _ _ _ _ _ _ _ _ hmd hme]
        simp
      | ok me =>
        cases schemaResult with
        | error e =>
          rw [runMain_schema_error _ _ _ _ _ _ _ _ _ _ _ hmd hme rfl]
          simp
        | ok sch =>
          rw [runMain_loop _ _ _ _ _ _ _ _ _ _ _ hmd hme rfl]
          exact processInstances_printed_length_le_one quiet (validate md me sch) stream
  · intro md me sch pre rest inst errs hmd hme hs hstream hpre hv hne
    subst hstream
    rw [runMain_loop _ _ _ _ _ _ _ _ _ _ _ hmd hme hs,
      processInstances_clean_append quiet (validate md me sch) pre _ hpre,
      processInstances_fail_cons quiet (validate md me sch) inst rest errs hv hne]
    refine ⟨by simp, by simp, by simp⟩

/-- C10 witness: with a clean instance, then a failing instance, then a
trailing instance, the run stops after two instances, prints one
indicator array, and exits 1. -/
theorem C10_single_report_witness :
    (runMain none none false "schema.jtd" none (Except.ok ())
        typeStringValidator
        [Except.ok (Json.str "abc"), Except.ok (Json.num 123),
          Except.ok (Json.str "def")]).printed.length ≤ 1
      ∧ (runMain none none false "schema.jtd" none (Except.ok ())
          typeStringValidator
          [Except.ok (Json.str "abc"), Except.ok (Json.num 123),
            Except.ok (Json.str "def")]).instancesParsed = 2
      ∧ (runMain none none false "schema.jtd" none (Except.ok ())
          typeStringValidator
          [Except.ok (Json.str "abc"), Except.ok (Json.num 123),
            Except.ok (Json.str "def")]).collected.length = 2
      ∧ (runMain none none false "schema.jtd" none (Except.ok ())
          typeStringValidator
          [Except.ok (Json.str "abc"), Except.ok (Json.num 123),
            Except.ok (Json.str "def")]).exitCode = 1 := by
  have h := C10_single_report none none false "schema.jtd" none (Except.ok ())
    typeStringValidator
    [Except.ok (Json.str "abc"), Except.ok (Json.num 123), Except.ok (Json.str "def")]
  have h2 := h.2 none none () [Except.ok (Json.str "abc")] [Except.ok (Json.str "def")]
    (Json.num 123) [{ instance_path := [], schema_path := [] }] rfl rfl rfl rfl
    (by
      intro x hx
      rw [List.mem_singleton] at hx
      subst hx
      exact ⟨Json.str "abc", rfl, rfl⟩)
    rfl (by decide)
  exact ⟨h.1, h2.1, h2.2.1, h2.2.2⟩

end JtdValidate
